import Mathlib

/-!
Verification of the OSEAN-KG ontology-mapping and import pipeline
(`src/ontology_mapping.py`, `src/Import_to_neo4j.py`) against its
natural-language specification.

The Neo4j property graph is embedded shallowly: nodes are records with a
numeric id (standing for Neo4j's internal node identity), a single label and
an association list of string properties; relationships are (source id,
type, target id) triples.  Cypher string operations (`STARTS WITH`,
`substring`, `split`/`last`, `replace`) are embedded character-wise, and the
Cypher rule that setting a property to `null` removes it is modelled
explicitly in `setPropOpt`.
-/

set_option autoImplicit false

namespace OseanKG

/-- A property-graph node: internal id, single label, property list. -/
structure GNode where
  nid : Nat
  label : String
  props : List (String × String)
deriving DecidableEq, Repr

/-- A directed, typed relationship between two nodes, identified (as in
Neo4j `MERGE`) by source node, relationship type and target node. -/
structure Edge where
  src : Nat
  typ : String
  dst : Nat
deriving DecidableEq, Repr

/-- A property graph. -/
structure Graph where
  nodes : List GNode
  edges : List Edge
deriving DecidableEq, Repr

/-- Lookup of a key in a property list (`n.k` in Cypher; `none` stands for
`null`/absent). -/
def lookupKey (k : String) : List (String × String) → Option String
  | [] => none
  | kv :: tl => if kv.1 = k then some kv.2 else lookupKey k tl

/-- Delete a key from a property list. -/
def removeKey (k : String) : List (String × String) → List (String × String)
  | [] => []
  | kv :: tl => if kv.1 = k then removeKey k tl else kv :: removeKey k tl

/-- Store a key in a property list: update in place if present, else append. -/
def setKey (k s : String) : List (String × String) → List (String × String)
  | [] => [(k, s)]
  | kv :: tl => if kv.1 = k then (k, s) :: setKey k s tl else kv :: setKey k s tl

/-- Property lookup (`n.k` in Cypher; `none` stands for `null`/absent). -/
def getProp (n : GNode) (k : String) : Option String :=
  lookupKey k n.props

/-- Cypher `REMOVE n.k`: delete a property if present. -/
def removeProp (n : GNode) (k : String) : GNode :=
  ⟨n.nid, n.label, removeKey k n.props⟩

/-- Cypher `SET n.k = v` with null semantics: storing `null` removes the
property, storing a string updates it in place or appends it. -/
def setPropOpt (n : GNode) (k : String) (v : Option String) : GNode :=
  match v with
  | none => removeProp n k
  | some s => ⟨n.nid, n.label, setKey k s n.props⟩

/-- Cypher `STARTS WITH`, character-wise. -/
def strStartsWith (p s : String) : Bool :=
  p.data.isPrefixOf s.data

/-- Cypher `substring(s, start)` (0-indexed, character-based). -/
def cypherSubstring (s : String) (start : Nat) : String :=
  ⟨s.data.drop start⟩

/-- Split a character list at every occurrence of a separator character. -/
def splitOnChar (c : Char) : List Char → List (List Char)
  | [] => [[]]
  | x :: xs =>
    let r := splitOnChar c xs
    if x = c then [] :: r
    else
      match r with
      | [] => [[x]]
      | h :: t => (x :: h) :: t

/-- Cypher `last(split(uri, '/'))`: the final path segment of a URI. -/
def uriTail (s : String) : String :=
  ⟨(splitOnChar '/' s.data).getLastD []⟩

/-- Cypher `replace(s, '_', ':')`. -/
def underscoreToColon (s : String) : String :=
  ⟨s.data.map (fun ch => if ch = '_' then ':' else ch)⟩

/-! ## ID normalization (`add_id_prefixes`, src/ontology_mapping.py:82-203)

The Python function loops over a fixed table of (field, prefix) pairs and,
for each pair, runs one `MATCH ... WHERE ... SET` query per label over the
fixed label list Organism, Sample, Analysis, Assay, Experiment,
Intervention, Material.  Per node the effect is: for each rule in table
order, if the field is present, non-empty and does not already start with
the prefix, set it to prefix ++ value. -/

/-- The `prefix_mappings` table of `add_id_prefixes`. -/
def idRules : List (String × String) :=
  [("organism_id", "org_"),
   ("experiment_id", "exp_"),
   ("intervention_id", "int_"),
   ("material_id", "mat_"),
   ("sample_id", "sam_"),
   ("assay_id", "asy_"),
   ("analysis_id", "ana_")]

/-- The node labels whose queries appear in `add_id_prefixes`. -/
def idRuleLabels : List String :=
  ["Organism", "Sample", "Analysis", "Assay", "Experiment", "Intervention", "Material"]

/-- The value rewrite of one normalization query: guard
`v IS NOT NULL AND v <> '' AND NOT v STARTS WITH p`, action `p + toString(v)`. -/
def normalizeValue (p v : String) : String :=
  if v ≠ "" ∧ strStartsWith p v = false then p ++ v else v

/-- One (field, prefix) rule applied to one node. -/
def applyIdRule (field p : String) (n : GNode) : GNode :=
  match getProp n field with
  | none => n
  | some v =>
    if v = "" ∨ strStartsWith p v = true then n
    else setPropOpt n field (some (p ++ v))

/-- The whole `add_id_prefixes` pass on one node: nodes whose label is in
the fixed label list get every rule of the table, others are untouched. -/
def add_id_prefixes_node (n : GNode) : GNode :=
  if n.label ∈ idRuleLabels then
    idRules.foldl (fun m fp => applyIdRule fp.1 fp.2 m) n
  else n

/-- The whole `add_id_prefixes` pass on a graph. -/
def add_id_prefixes_graph (g : Graph) : Graph :=
  ⟨g.nodes.map add_id_prefixes_node, g.edges⟩


/-! ## Ontology mapping (`map_intervention_nodes`, `map_organism_nodes`,
src/ontology_mapping.py:379-502)

Each rule is a Cypher query generated from (property name, relationship
type, prefix); the candidate lookup key is the `CASE` expression
`WHEN value STARTS WITH p THEN substring(value, len(p) + 1) ELSE value`,
where the Python f-string inserts `len(prefix) + 1` as the 0-indexed
`substring` start. -/

/-- The `CASE` expression computing the lookup key of a mapping rule,
exactly as generated: `substring(value, len(p) + 1)` when prefixed. -/
def candidateKey (p v : String) : String :=
  if strStartsWith p v then cypherSubstring v (p.length + 1) else v

/-- The `mappings` table of `map_intervention_nodes`:
property name, relationship type, prefix to remove. -/
def interventionMappings : List (String × String × String) :=
  [("intervention_type_id", "HAS_TYPE", "int_type_"),
   ("material_id", "USES_MATERIAL", "mat_"),
   ("intervention_route_id", "HAS_ROUTE", "route_"),
   ("dosage_unit_id", "HAS_DOSAGE_UNIT", "dosage_")]

/-- Edges produced by one intervention mapping rule for one entity node
against a list of Resource nodes (the `MATCH ... WHERE ... MERGE` query,
run on a graph with no pre-existing edges of the rule's type). -/
def mappingRuleEdges (propName relType p : String) (i : GNode) (rs : List GNode) : List Edge :=
  match getProp i propName with
  | none => []
  | some v =>
    if v = "" then []
    else
      (rs.filter (fun r =>
        uriTail ((getProp r "uri").getD "") == candidateKey p v)).map
        (fun r => ⟨i.nid, relType, r.nid⟩)

/-- All edges `map_intervention_nodes` creates from one Intervention node. -/
def map_intervention_edges (i : GNode) (rs : List GNode) : List Edge :=
  interventionMappings.foldl
    (fun es m => es ++ mappingRuleEdges m.1 m.2.1 m.2.2 i rs) []

/-- The `WHERE` disjunction of `map_organism_nodes` for rule
(`species_id`, `IS_SPECIES`, `species_`): the URI tail equals the candidate
key, or equals the candidate key with underscores replaced by colons. -/
def speciesMatch (v uri : String) : Bool :=
  uriTail uri == candidateKey "species_" v ||
  uriTail uri == underscoreToColon (candidateKey "species_" v)

/-- Edges `map_organism_nodes` creates from one Organism node. -/
def map_organism_edges (o : GNode) (rs : List GNode) : List Edge :=
  match getProp o "species_id" with
  | none => []
  | some v =>
    if v = "" then []
    else
      (rs.filter (fun r => speciesMatch v ((getProp r "uri").getD ""))).map
        (fun r => ⟨o.nid, "IS_SPECIES", r.nid⟩)

/-! ## Resource property humanizer (`update_resource_properties`,
src/ontology_mapping.py:246-303)

One `SET` query copies each coded property onto its human-readable name
(under Cypher semantics, copying an absent property stores `null`, which
removes the target), then one `REMOVE` query deletes the coded originals. -/

/-- The (target, source) pairs of the `SET` query, in query order. -/
def humanizePairs : List (String × String) :=
  [("editor_preferred_label", "IAO_0000111"),
   ("example_of_usage", "IAO_0000112"),
   ("has_curation_status", "IAO_0000114"),
   ("definition", "IAO_0000115"),
   ("editor_note", "IAO_0000116"),
   ("term_editor", "IAO_0000117"),
   ("alternative_term", "IAO_0000118"),
   ("definition_source", "IAO_0000119"),
   ("curator_note", "IAO_0000232"),
   ("term_tracker_item", "IAO_0000233"),
   ("imported_from", "IAO_0000412"),
   ("violin_vaccine_id", "VO_0001818"),
   ("trade_name", "VO_0003099"),
   ("fda_vaccine_indications", "VO_0003160"),
   ("vaccine_package_insert_pdf_url", "VO_0003161"),
   ("vaccine_stn", "VO_0003162"),
   ("taxon_notes", "UBPROP_0000008"),
   ("external_definition", "UBPROP_0000001"),
   ("axiom_lost_from_external_ontology", "UBPROP_0000002"),
   ("homology_notes", "UBPROP_0000003")]

/-- The property list of the `REMOVE` query, in query order. -/
def codedKeys : List String :=
  ["IAO_0000111", "IAO_0000112", "IAO_0000114", "IAO_0000115",
   "IAO_0000116", "IAO_0000117", "IAO_0000118", "IAO_0000119",
   "IAO_0000232", "IAO_0000233", "IAO_0000412",
   "VO_0001818", "VO_0003099", "VO_0003160", "VO_0003161", "VO_0003162",
   "UBPROP_0000008", "UBPROP_0000001", "UBPROP_0000002", "UBPROP_0000003"]

/-- The `SET` query of `update_resource_properties` on one Resource node. -/
def humanizeSet (n : GNode) : GNode :=
  humanizePairs.foldl (fun m ts => setPropOpt m ts.1 (getProp m ts.2)) n

/-- The `REMOVE` query of `update_resource_properties` on one Resource node. -/
def humanizeRemove (n : GNode) : GNode :=
  codedKeys.foldl removeProp n

/-- The whole `update_resource_properties` on one Resource node: copy, then remove. -/
def update_resource_properties_node (n : GNode) : GNode :=
  humanizeRemove (humanizeSet n)

/-- The whole `update_resource_properties` on a graph: both queries match only
`(r:Resource)`; relationships are untouched. -/
def update_resource_properties_graph (g : Graph) : Graph :=
  ⟨g.nodes.map (fun n =>
      if n.label == "Resource" then update_resource_properties_node n else n),
   g.edges⟩

/-! ## Relationship linking (`RELATIONSHIP_QUERIES`, src/Import_to_neo4j.py:238-378)

Every rule has the shape
`MATCH (l:L), (r:R) WHERE l.f = r.g MERGE (l)-[:T]->(r)`.
Cypher equality on `null` is `null`, so a pair matches only when both
fields are present and equal; `MERGE` creates the edge only when no edge
with the same source, type and target exists. -/

/-- Cypher `l.f = r.g` (three-valued equality collapsed to its `WHERE`
effect: `null` compares false). -/
def propValEq (a b : Option String) : Bool :=
  match a, b with
  | some x, some y => x == y
  | _, _ => false

/-- Cypher `MERGE` of one edge into the edge list: create only if absent. -/
def mergeEdge (es : List Edge) (e : Edge) : List Edge :=
  if e ∈ es then es else es ++ [e]

/-- The matching pairs of a relationship rule on a graph. -/
def relRuleEdges (lLabel lField relType rLabel rField : String) (g : Graph) : List Edge :=
  (g.nodes.filter (fun n => n.label == lLabel)).flatMap (fun l =>
    ((g.nodes.filter (fun n => n.label == rLabel)).filter (fun r =>
        propValEq (getProp l lField) (getProp r rField))).map
      (fun r => ⟨l.nid, relType, r.nid⟩))

/-- Run one relationship rule: `MERGE` every matching pair's edge. -/
def runRelRule (lLabel lField relType rLabel rField : String) (g : Graph) : Graph :=
  ⟨g.nodes, (relRuleEdges lLabel lField relType rLabel rField g).foldl mergeEdge g.edges⟩

/-- The `StudyExperiment` rule of `RELATIONSHIP_QUERIES`. -/
def runStudyExperiment (g : Graph) : Graph :=
  runRelRule "Study" "study_id" "HAS_EXPERIMENT" "Experiment" "study_id" g

/-! ## Pipeline control flow (`import_data`, src/ontology_mapping.py:504-533)

`import_data` calls `import_ontology_complete`, `add_id_prefixes`,
`map_ontology` and `update_resource_properties` in order inside one try
block.  Each of the four wraps its own body in a try/except that logs the
error and does not re-raise, so a propagated exception (which would abort
the remaining calls) can only come from outside those bodies. -/

/-- The phases `import_data` sequences. -/
inductive Phase
  | importOntology
  | addIdPrefixes
  | mapOntology
  | updateResourceProps
deriving DecidableEq, Repr

/-- The statements inside the try block of `import_ontology_complete`:
constraint creation (its inner try swallows the already-exists error),
graph-config reset, n10s configuration, then the RDF fetch.  `fetchOk`
says whether `n10s.rdf.import.fetch` succeeds; on failure the exception
propagates to the enclosing handler. -/
def importOntologyBody (fetchOk : Bool) : Except String Unit :=
  if fetchOk then Except.ok () else Except.error "fetch failed"

/-- The function `import_ontology_complete`: the body wrapped in `except Exception as e`
which prints the error and returns normally.  The result is the list of
error lines logged; an `Except.error` result would mean an exception
propagated to the caller, which the handler makes impossible. -/
def import_ontology_complete (fetchOk : Bool) : Except String (List String) :=
  match importOntologyBody fetchOk with
  | Except.ok _ => Except.ok []
  | Except.error e => Except.ok ["Error during ontology import: " ++ e]

/-- The outcome of each phase as seen by `import_data`: only
`import_ontology_complete` depends on the fetch; `add_id_prefixes`
(lines 97-203), `map_ontology` (lines 220-243) and
`update_resource_properties` (lines 267-303) likewise wrap their bodies
in try/except and never propagate. -/
def phaseResult (fetchOk : Bool) : Phase → Except String (List String)
  | Phase.importOntology => import_ontology_complete fetchOk
  | Phase.addIdPrefixes => Except.ok []
  | Phase.mapOntology => Except.ok []
  | Phase.updateResourceProps => Except.ok []

/-- Sequential execution with `import_data`'s own try/except: a phase
whose call raises ends the run (its successors are skipped and the error
is logged by the outer handler). Returns the phases that ran and the log. -/
def runPipeline (fetchOk : Bool) : List Phase → List Phase × List String
  | [] => ([], [])
  | ph :: rest =>
    match phaseResult fetchOk ph with
    | Except.ok log =>
      let r := runPipeline fetchOk rest
      (ph :: r.1, log ++ r.2)
    | Except.error e => ([ph], ["Error in main execution: " ++ e])

/-- The phase order of `import_data`. -/
def pipelinePhases : List Phase :=
  [Phase.importOntology, Phase.addIdPrefixes, Phase.mapOntology, Phase.updateResourceProps]

/-- The function `import_data`: run the four phases in order. -/
def import_data_run (fetchOk : Bool) : List Phase × List String :=
  runPipeline fetchOk pipelinePhases

/-- The eleven domain entity labels loaded by `Import_to_neo4j.py`. -/
def domainLabels : List String :=
  ["Assay", "Analysis", "Documentation", "Experiment", "Group", "Intervention",
   "Material", "Organism", "Study", "Sample", "Result"]

/-- Graph effect of `import_ontology_complete`: the config reset deletes
`_GraphConfig` nodes, a successful fetch adds the imported Resource nodes,
a failed fetch adds nothing; entity nodes and relationships are never
written. -/
def import_ontology_effect (fetchOk : Bool) (imported : List GNode) (g : Graph) : Graph :=
  let g1 : Graph := ⟨g.nodes.filter (fun n => n.label != "_GraphConfig"), g.edges⟩
  if fetchOk then ⟨g1.nodes ++ imported, g1.edges⟩ else g1

/-! ## Helper lemmas: property operations -/

theorem removeProp_nid (n : GNode) (k : String) : (removeProp n k).nid = n.nid := rfl

theorem removeProp_label (n : GNode) (k : String) : (removeProp n k).label = n.label := rfl

theorem setPropOpt_nid (n : GNode) (k : String) (v : Option String) :
    (setPropOpt n k v).nid = n.nid := by
  cases v <;> rfl

theorem setPropOpt_label (n : GNode) (k : String) (v : Option String) :
    (setPropOpt n k v).label = n.label := by
  cases v <;> rfl

theorem lookupKey_removeKey (l : List (String × String)) (k k' : String) :
    lookupKey k' (removeKey k l) = if k' = k then none else lookupKey k' l := by
  induction l with
  | nil => simp [lookupKey, removeKey]
  | cons hd tl ih =>
    rw [removeKey]
    by_cases h1 : hd.1 = k
    · rw [if_pos h1, ih]
      by_cases h2 : k' = k
      · rw [if_pos h2, if_pos h2]
      · rw [if_neg h2, if_neg h2, lookupKey,
          if_neg (fun he : hd.1 = k' => h2 (he.symm.trans h1))]
    · rw [if_neg h1, lookupKey]
      by_cases h3 : hd.1 = k'
      · rw [if_pos h3, if_neg (fun he : k' = k => h1 (h3.trans he)), lookupKey, if_pos h3]
      · rw [if_neg h3, ih]
        by_cases h2 : k' = k
        · rw [if_pos h2, if_pos h2]
        · rw [if_neg h2, if_neg h2, lookupKey, if_neg h3]

theorem lookupKey_setKey (l : List (String × String)) (k k' s : String) :
    lookupKey k' (setKey k s l) = if k' = k then some s else lookupKey k' l := by
  induction l with
  | nil =>
    by_cases h : k' = k
    · simp [setKey, lookupKey, h]
    · simp [setKey, lookupKey, h, Ne.symm h]
  | cons hd tl ih =>
    rw [setKey]
    by_cases h1 : hd.1 = k
    · rw [if_pos h1, lookupKey]
      by_cases h2 : k' = k
      · rw [if_pos (show (k, s).1 = k' from h2.symm), if_pos h2]
      · rw [if_neg (show ¬(k, s).1 = k' from fun he => h2 he.symm), ih, if_neg h2,
          if_neg h2, lookupKey, if_neg (fun he : hd.1 = k' => h2 (he.symm.trans h1))]
    · rw [if_neg h1, lookupKey]
      by_cases h3 : hd.1 = k'
      · by_cases h2 : k' = k
        · exact absurd (h3.trans h2) h1
        · rw [if_pos h3, if_neg h2, lookupKey, if_pos h3]
      · rw [if_neg h3, ih]
        by_cases h2 : k' = k
        · rw [if_pos h2, if_pos h2]
        · rw [if_neg h2, if_neg h2, lookupKey, if_neg h3]

theorem getProp_removeProp (n : GNode) (k k' : String) :
    getProp (removeProp n k) k' = if k' = k then none else getProp n k' := by
  cases n with
  | mk i lab props => exact lookupKey_removeKey props k k'

theorem getProp_setPropOpt_some (n : GNode) (k k' s : String) :
    getProp (setPropOpt n k (some s)) k' = if k' = k then some s else getProp n k' := by
  cases n with
  | mk i lab props => exact lookupKey_setKey props k k' s

theorem setPropOpt_none (n : GNode) (k : String) :
    setPropOpt n k none = removeProp n k := rfl

/-! ## Helper lemmas: ID normalization -/

theorem strStartsWith_append (p v : String) : strStartsWith p (p ++ v) = true := by
  rw [strStartsWith, String.data_append]
  exact List.isPrefixOf_iff_prefix.mpr (List.prefix_append p.data v.data)

theorem cypherSubstring_append (p v : String) : cypherSubstring (p ++ v) p.length = v := by
  show String.mk ((p ++ v).data.drop p.length) = v
  rw [String.data_append]
  show String.mk ((p.data ++ v.data).drop p.data.length) = v
  rw [List.drop_left]

theorem normalizeValue_of_unprefixed (p v : String) (hv : v ≠ "")
    (h : strStartsWith p v = false) : normalizeValue p v = p ++ v := by
  rw [normalizeValue, if_pos ⟨hv, h⟩]

theorem normalizeValue_of_prefixed (p v : String) (h : strStartsWith p v = true) :
    normalizeValue p v = v := by
  rw [normalizeValue, if_neg]
  intro hc
  rw [h] at hc
  exact Bool.true_eq_false.mp hc.2

theorem normalizeValue_of_empty (p : String) : normalizeValue p "" = "" := by
  rw [normalizeValue, if_neg]
  intro hc
  exact hc.1 rfl

theorem normalizeValue_startsWith (p v : String) (hv : v ≠ "") :
    strStartsWith p (normalizeValue p v) = true := by
  rcases h : strStartsWith p v with _ | _
  · rw [normalizeValue_of_unprefixed p v hv h]
    exact strStartsWith_append p v
  · rw [normalizeValue_of_prefixed p v h]
    exact h

theorem normalizeValue_norm (p v : String) :
    normalizeValue p v = "" ∨ strStartsWith p (normalizeValue p v) = true := by
  by_cases hv : v = ""
  · subst hv
    exact Or.inl (normalizeValue_of_empty p)
  · exact Or.inr (normalizeValue_startsWith p v hv)

theorem normalizeValue_idem (p v : String) :
    normalizeValue p (normalizeValue p v) = normalizeValue p v := by
  rcases normalizeValue_norm p v with h | h
  · rw [h, normalizeValue_of_empty]
  · exact normalizeValue_of_prefixed p _ h

/-- A property value is in normalized form for prefix `p`: absent, empty or
already carrying the prefix. -/
def normalizedOpt (p : String) (ov : Option String) : Prop :=
  ∀ v, ov = some v → v = "" ∨ strStartsWith p v = true

theorem applyIdRule_of_none (f p : String) (n : GNode) (h : getProp n f = none) :
    applyIdRule f p n = n := by
  rw [applyIdRule, h]

theorem applyIdRule_of_guard (f p : String) (n : GNode) (v : String)
    (h : getProp n f = some v) (hg : v = "" ∨ strStartsWith p v = true) :
    applyIdRule f p n = n := by
  rw [applyIdRule, h]
  simp only [if_pos hg]

theorem applyIdRule_of_active (f p : String) (n : GNode) (v : String)
    (h : getProp n f = some v) (hv : v ≠ "") (hs : strStartsWith p v = false) :
    applyIdRule f p n = setPropOpt n f (some (p ++ v)) := by
  rw [applyIdRule, h]
  have hc : ¬(v = "" ∨ strStartsWith p v = true) := by
    intro hc
    rcases hc with hc | hc
    · exact hv hc
    · rw [hs] at hc
      exact Bool.false_eq_true.mp hc
  simp only [if_neg hc]

theorem applyIdRule_fixed (f p : String) (n : GNode)
    (h : normalizedOpt p (getProp n f)) : applyIdRule f p n = n := by
  rcases hg : getProp n f with _ | v
  · exact applyIdRule_of_none f p n hg
  · exact applyIdRule_of_guard f p n v hg (h v hg)

theorem getProp_applyIdRule_self (f p : String) (n : GNode) :
    getProp (applyIdRule f p n) f = (getProp n f).map (normalizeValue p) := by
  rcases hg : getProp n f with _ | v
  · rw [applyIdRule_of_none f p n hg, hg]
    rfl
  · by_cases hv : v = ""
    · subst hv
      rw [applyIdRule_of_guard f p n "" hg (Or.inl rfl), hg]
      simp [normalizeValue_of_empty]
    · rcases hs : strStartsWith p v with _ | _
      · rw [applyIdRule_of_active f p n v hg hv hs, getProp_setPropOpt_some, if_pos rfl]
        show some (p ++ v) = some (normalizeValue p v)
        rw [normalizeValue_of_unprefixed p v hv hs]
      · rw [applyIdRule_of_guard f p n v hg (Or.inr hs), hg]
        show (some v : Option String) = some (normalizeValue p v)
        rw [normalizeValue_of_prefixed p v hs]

theorem getProp_applyIdRule_other (f p f' : String) (n : GNode) (h : f' ≠ f) :
    getProp (applyIdRule f p n) f' = getProp n f' := by
  rcases hg : getProp n f with _ | v
  · rw [applyIdRule_of_none f p n hg]
  · by_cases hv : v = ""
    · rw [applyIdRule_of_guard f p n v hg (Or.inl hv)]
    · rcases hs : strStartsWith p v with _ | _
      · rw [applyIdRule_of_active f p n v hg hv hs, getProp_setPropOpt_some, if_neg h]
      · rw [applyIdRule_of_guard f p n v hg (Or.inr hs)]

theorem applyIdRule_label (f p : String) (n : GNode) :
    (applyIdRule f p n).label = n.label := by
  rcases hg : getProp n f with _ | v
  · rw [applyIdRule_of_none f p n hg]
  · by_cases hv : v = ""
    · rw [applyIdRule_of_guard f p n v hg (Or.inl hv)]
    · rcases hs : strStartsWith p v with _ | _
      · rw [applyIdRule_of_active f p n v hg hv hs, setPropOpt_label]
      · rw [applyIdRule_of_guard f p n v hg (Or.inr hs)]

theorem applyIdRule_nid (f p : String) (n : GNode) :
    (applyIdRule f p n).nid = n.nid := by
  rcases hg : getProp n f with _ | v
  · rw [applyIdRule_of_none f p n hg]
  · by_cases hv : v = ""
    · rw [applyIdRule_of_guard f p n v hg (Or.inl hv)]
    · rcases hs : strStartsWith p v with _ | _
      · rw [applyIdRule_of_active f p n v hg hv hs, setPropOpt_nid]
      · rw [applyIdRule_of_guard f p n v hg (Or.inr hs)]

theorem getProp_applyIdRule_isSome (f p k : String) (n : GNode) :
    (getProp (applyIdRule f p n) k).isSome = (getProp n k).isSome := by
  by_cases h : k = f
  · rw [h, getProp_applyIdRule_self]
    cases getProp n f <;> rfl
  · rw [getProp_applyIdRule_other f p k n h]

theorem foldIdRules_label (rules : List (String × String)) (n : GNode) :
    (rules.foldl (fun m fp => applyIdRule fp.1 fp.2 m) n).label = n.label := by
  induction rules generalizing n with
  | nil => rfl
  | cons hd tl ih =>
    rw [List.foldl_cons, ih, applyIdRule_label]

theorem foldIdRules_nid (rules : List (String × String)) (n : GNode) :
    (rules.foldl (fun m fp => applyIdRule fp.1 fp.2 m) n).nid = n.nid := by
  induction rules generalizing n with
  | nil => rfl
  | cons hd tl ih =>
    rw [List.foldl_cons, ih, applyIdRule_nid]

theorem foldIdRules_getProp_other (rules : List (String × String)) (n : GNode) (f : String)
    (h : ∀ fp ∈ rules, fp.1 ≠ f) :
    getProp (rules.foldl (fun m fp => applyIdRule fp.1 fp.2 m) n) f = getProp n f := by
  induction rules generalizing n with
  | nil => rfl
  | cons hd tl ih =>
    rw [List.foldl_cons, ih _ (fun fp hfp => h fp (List.mem_cons_of_mem hd hfp)),
      getProp_applyIdRule_other hd.1 hd.2 f n (fun he => h hd (List.mem_cons_self hd tl) he.symm)]

theorem foldIdRules_getProp_self (rules : List (String × String)) (n : GNode)
    (hnd : (rules.map Prod.fst).Nodup) (fp : String × String) (hfp : fp ∈ rules) :
    getProp (rules.foldl (fun m fp => applyIdRule fp.1 fp.2 m) n) fp.1 =
      (getProp n fp.1).map (normalizeValue fp.2) := by
  induction rules generalizing n with
  | nil => cases hfp
  | cons hd tl ih =>
    rw [List.map_cons, List.nodup_cons] at hnd
    rcases List.mem_cons.mp hfp with he | hm
    · subst he
      rw [List.foldl_cons,
        foldIdRules_getProp_other tl _ fp.1
          (fun fp' hfp' hne => hnd.1 (hne ▸ List.mem_map_of_mem Prod.fst hfp')),
        getProp_applyIdRule_self]
    · rw [List.foldl_cons, ih _ hnd.2 hm,
        getProp_applyIdRule_other hd.1 hd.2 fp.1 n
          (fun he => hnd.1 (he ▸ List.mem_map_of_mem Prod.fst hm))]

theorem foldIdRules_fixed (rules : List (String × String)) (n : GNode)
    (h : ∀ fp ∈ rules, normalizedOpt fp.2 (getProp n fp.1)) :
    rules.foldl (fun m fp => applyIdRule fp.1 fp.2 m) n = n := by
  induction rules with
  | nil => rfl
  | cons hd tl ih =>
    rw [List.foldl_cons, applyIdRule_fixed hd.1 hd.2 n (h hd (List.mem_cons_self hd tl))]
    exact ih (fun fp hfp => h fp (List.mem_cons_of_mem hd hfp))

theorem foldIdRules_isSome (rules : List (String × String)) (n : GNode) (k : String) :
    (getProp (rules.foldl (fun m fp => applyIdRule fp.1 fp.2 m) n) k).isSome =
      (getProp n k).isSome := by
  induction rules generalizing n with
  | nil => rfl
  | cons hd tl ih =>
    rw [List.foldl_cons, ih, getProp_applyIdRule_isSome]

theorem idRules_fields_nodup : (idRules.map Prod.fst).Nodup := by decide

theorem addNode_of_label_notin (n : GNode) (h : n.label ∉ idRuleLabels) :
    add_id_prefixes_node n = n := by
  rw [add_id_prefixes_node, if_neg h]

theorem addNode_of_label_in (n : GNode) (h : n.label ∈ idRuleLabels) :
    add_id_prefixes_node n = idRules.foldl (fun m fp => applyIdRule fp.1 fp.2 m) n := by
  rw [add_id_prefixes_node, if_pos h]

theorem addNode_label (n : GNode) : (add_id_prefixes_node n).label = n.label := by
  by_cases h : n.label ∈ idRuleLabels
  · rw [addNode_of_label_in n h, foldIdRules_label]
  · rw [addNode_of_label_notin n h]

theorem addNode_nid (n : GNode) : (add_id_prefixes_node n).nid = n.nid := by
  by_cases h : n.label ∈ idRuleLabels
  · rw [addNode_of_label_in n h, foldIdRules_nid]
  · rw [addNode_of_label_notin n h]

theorem addNode_getProp_rule (n : GNode) (h : n.label ∈ idRuleLabels)
    (fp : String × String) (hfp : fp ∈ idRules) :
    getProp (add_id_prefixes_node n) fp.1 = (getProp n fp.1).map (normalizeValue fp.2) := by
  rw [addNode_of_label_in n h]
  exact foldIdRules_getProp_self idRules n idRules_fields_nodup fp hfp

theorem addNode_idem (n : GNode) :
    add_id_prefixes_node (add_id_prefixes_node n) = add_id_prefixes_node n := by
  by_cases h : n.label ∈ idRuleLabels
  · have hlab : (add_id_prefixes_node n).label ∈ idRuleLabels := by
      rw [addNode_label]
      exact h
    rw [addNode_of_label_in _ hlab]
    apply foldIdRules_fixed
    intro fp hfp v hv
    rw [addNode_getProp_rule n h fp hfp] at hv
    rcases hg : getProp n fp.1 with _ | w
    · rw [hg] at hv
      cases hv
    · rw [hg] at hv
      have hv' : some (normalizeValue fp.2 w) = some v := hv
      cases Option.some.inj hv'
      exact normalizeValue_norm fp.2 w
  · rw [addNode_of_label_notin n h, addNode_of_label_notin n h]

theorem addNode_isSome (n : GNode) (k : String) :
    (getProp (add_id_prefixes_node n) k).isSome = (getProp n k).isSome := by
  by_cases h : n.label ∈ idRuleLabels
  · rw [addNode_of_label_in n h, foldIdRules_isSome]
  · rw [addNode_of_label_notin n h]

/-! ## Helper lemmas: Resource property humanizer -/

theorem getProp_removeAll (ks : List String) (n : GNode) (k : String) :
    getProp (ks.foldl removeProp n) k = if k ∈ ks then none else getProp n k := by
  induction ks generalizing n with
  | nil => simp
  | cons hd tl ih =>
    rw [List.foldl_cons, ih]
    by_cases h1 : k ∈ tl
    · rw [if_pos h1, if_pos (List.mem_cons_of_mem hd h1)]
    · rw [if_neg h1, getProp_removeProp]
      by_cases h2 : k = hd
      · rw [if_pos h2, if_pos (h2 ▸ List.mem_cons_self hd tl)]
      · rw [if_neg h2, if_neg (fun hm => (List.mem_cons.mp hm).elim h2 h1)]

theorem humanizeSetFold_allNone (pairs : List (String × String)) (n : GNode)
    (h : ∀ ts ∈ pairs, getProp n ts.2 = none) (k : String) :
    getProp (pairs.foldl (fun m ts => setPropOpt m ts.1 (getProp m ts.2)) n) k =
      if k ∈ pairs.map Prod.fst then none else getProp n k := by
  induction pairs generalizing n with
  | nil => simp
  | cons hd tl ih =>
    rw [List.foldl_cons, h hd (List.mem_cons_self hd tl), setPropOpt_none]
    have hrest : ∀ ts ∈ tl, getProp (removeProp n hd.1) ts.2 = none := by
      intro ts hts
      rw [getProp_removeProp]
      by_cases he : ts.2 = hd.1
      · rw [if_pos he]
      · rw [if_neg he]
        exact h ts (List.mem_cons_of_mem hd hts)
    rw [ih _ hrest]
    by_cases h1 : k ∈ tl.map Prod.fst
    · rw [if_pos h1, if_pos (by rw [List.map_cons]; exact List.mem_cons_of_mem hd.1 h1)]
    · rw [if_neg h1, getProp_removeProp]
      by_cases h2 : k = hd.1
      · rw [if_pos h2, if_pos (by rw [List.map_cons]; exact h2 ▸ List.mem_cons_self hd.1 (tl.map Prod.fst))]
      · rw [if_neg h2, if_neg (by rw [List.map_cons]; exact fun hm => (List.mem_cons.mp hm).elim h2 h1)]

theorem urpNode_coded_none (n : GNode) (s : String) (hs : s ∈ codedKeys) :
    getProp (update_resource_properties_node n) s = none := by
  rw [update_resource_properties_node, humanizeRemove, getProp_removeAll, if_pos hs]

theorem humanizePairs_snd_mem_codedKeys :
    ∀ ts ∈ humanizePairs, ts.2 ∈ codedKeys := by decide

theorem urpNode_twice_target_none (n : GNode) (t : String)
    (ht : t ∈ humanizePairs.map Prod.fst) :
    getProp (update_resource_properties_node (update_resource_properties_node n)) t = none := by
  have hnone : ∀ ts ∈ humanizePairs, getProp (update_resource_properties_node n) ts.2 = none :=
    fun ts hts => urpNode_coded_none n ts.2 (humanizePairs_snd_mem_codedKeys ts hts)
  conv_lhs => rw [update_resource_properties_node]
  rw [humanizeRemove, getProp_removeAll]
  by_cases h : t ∈ codedKeys
  · rw [if_pos h]
  · rw [if_neg h, humanizeSet, humanizeSetFold_allNone humanizePairs _ hnone t, if_pos ht]

/-! ## Helper lemmas: MERGE semantics for relationship rules -/

theorem mem_foldl_mergeEdge_of_mem_init (l : List Edge) (es : List Edge) (e : Edge)
    (he : e ∈ es) : e ∈ l.foldl mergeEdge es := by
  induction l generalizing es with
  | nil => exact he
  | cons hd tl ih =>
    rw [List.foldl_cons]
    apply ih
    rw [mergeEdge]
    split
    · exact he
    · exact List.mem_append_left _ he

theorem count_foldl_mergeEdge_of_mem (l : List Edge) (es : List Edge) (e : Edge)
    (he : e ∈ es) : (l.foldl mergeEdge es).count e = es.count e := by
  induction l generalizing es with
  | nil => rfl
  | cons hd tl ih =>
    rw [List.foldl_cons]
    by_cases hm : hd ∈ es
    · rw [show mergeEdge es hd = es from if_pos hm]
      exact ih es he
    · rw [show mergeEdge es hd = es ++ [hd] from if_neg hm]
      rw [ih (es ++ [hd]) (List.mem_append_left _ he), List.count_append, List.count_singleton]
      have hne : (hd == e) = false := by
        rw [beq_eq_false_iff_ne]
        intro hc
        exact hm (hc ▸ he)
      rw [hne]
      simp

theorem count_foldl_mergeEdge_of_not_mem (l : List Edge) (es : List Edge) (e : Edge)
    (he : e ∉ es) :
    (l.foldl mergeEdge es).count e = if e ∈ l then 1 else 0 := by
  induction l generalizing es with
  | nil =>
    rw [List.foldl_nil, if_neg (List.not_mem_nil e), List.count_eq_zero]
    exact he
  | cons hd tl ih =>
    rw [List.foldl_cons]
    by_cases hh : hd = e
    · subst hh
      rw [show mergeEdge es hd = es ++ [hd] from if_neg he]
      have hmem : hd ∈ es ++ [hd] := List.mem_append_right _ (List.mem_cons_self hd [])
      rw [count_foldl_mergeEdge_of_mem tl (es ++ [hd]) hd hmem, List.count_append,
        List.count_singleton, if_pos (beq_self_eq_true hd),
        (List.count_eq_zero).mpr he, if_pos (List.mem_cons_self hd tl)]
    · have hstep : e ∉ mergeEdge es hd := by
        rw [mergeEdge]
        split
        · exact he
        · intro hc
          rcases List.mem_append.mp hc with hc | hc
          · exact he hc
          · exact hh (List.mem_singleton.mp hc).symm
      rw [ih _ hstep]
      by_cases ht : e ∈ tl
      · rw [if_pos ht, if_pos (List.mem_cons_of_mem hd ht)]
      · rw [if_neg ht, if_neg (fun hm => (List.mem_cons.mp hm).elim (fun hx => hh hx.symm) ht)]

theorem edge_mem_relRuleEdges (lL lF rT rL rF : String) (g : Graph) (s e : GNode)
    (hs : s ∈ g.nodes) (hsl : s.label = lL) (he : e ∈ g.nodes) (hel : e.label = rL)
    (hm : propValEq (getProp s lF) (getProp e rF) = true) :
    Edge.mk s.nid rT e.nid ∈ relRuleEdges lL lF rT rL rF g := by
  rw [relRuleEdges, List.mem_flatMap]
  refine ⟨s, List.mem_filter.mpr ⟨hs, by rw [hsl, beq_self_eq_true]⟩, ?_⟩
  rw [List.mem_map]
  refine ⟨e, List.mem_filter.mpr ⟨List.mem_filter.mpr ⟨he, by rw [hel, beq_self_eq_true]⟩, hm⟩, rfl⟩

theorem relRuleEdges_nodes_only (lL lF rT rL rF : String) (g : Graph) :
    relRuleEdges lL lF rT rL rF (runRelRule lL lF rT rL rF g) =
      relRuleEdges lL lF rT rL rF g := rfl

/-! ## Additional congruence helpers -/

theorem applyIdRule_props_congr (f p : String) (n m : GNode) (h : n.props = m.props) :
    (applyIdRule f p n).props = (applyIdRule f p m).props := by
  have hg : getProp n f = getProp m f := by
    rw [getProp, getProp, h]
  rcases hx : getProp m f with _ | v
  · rw [applyIdRule_of_none f p n (hg.trans hx), applyIdRule_of_none f p m hx]
    exact h
  · by_cases hv : v = ""
    · rw [applyIdRule_of_guard f p n v (hg.trans hx) (Or.inl hv),
        applyIdRule_of_guard f p m v hx (Or.inl hv)]
      exact h
    · rcases hsw : strStartsWith p v with _ | _
      · rw [applyIdRule_of_active f p n v (hg.trans hx) hv hsw,
          applyIdRule_of_active f p m v hx hv hsw]
        show setKey f (p ++ v) n.props = setKey f (p ++ v) m.props
        rw [h]
      · rw [applyIdRule_of_guard f p n v (hg.trans hx) (Or.inr hsw),
          applyIdRule_of_guard f p m v hx (Or.inr hsw)]
        exact h

theorem foldIdRules_props_congr (rules : List (String × String)) (n m : GNode)
    (h : n.props = m.props) :
    (rules.foldl (fun a fp => applyIdRule fp.1 fp.2 a) n).props =
      (rules.foldl (fun a fp => applyIdRule fp.1 fp.2 a) m).props := by
  induction rules generalizing n m with
  | nil => exact h
  | cons hd tl ih =>
    rw [List.foldl_cons, List.foldl_cons]
    exact ih _ _ (applyIdRule_props_congr hd.1 hd.2 n m h)

/-! ## Concrete scenario nodes -/

/-- An Intervention carrying the prefixed material id of the C1 scenario. -/
def c1Intervention : GNode := ⟨1, "Intervention", [("material_id", "mat_ABC123")]⟩

/-- A Resource whose URI's final path segment is the unprefixed id `ABC123`. -/
def c1Resource : GNode := ⟨2, "Resource", [("uri", "http://purl.obolibrary.org/obo/ABC123")]⟩

/-- A Group node carrying `experiment_id`; `add_id_prefixes` has no Group query. -/
def groupE1 : GNode := ⟨4, "Group", [("experiment_id", "E1")]⟩

/-- An Organism whose stored identifier already carries the prefix twice. -/
def orgDoubled : GNode := ⟨5, "Organism", [("organism_id", "org_org_1")]⟩

/-- An Organism with the unprefixed identifier `123`. -/
def orgNode123 : GNode := ⟨6, "Organism", [("organism_id", "123")]⟩

/-- An Organism whose identifier is already prefixed. -/
def orgNodePrefixed : GNode := ⟨7, "Organism", [("organism_id", "org_123")]⟩

/-- An Organism whose identifier is the empty string. -/
def orgNodeEmpty : GNode := ⟨8, "Organism", [("organism_id", "")]⟩

/-- An Organism whose identifier is exactly the bare prefix `org_`. -/
def orgNodeBare : GNode := ⟨9, "Organism", [("organism_id", "org_")]⟩

/-! ## Claim C1 -/

/-- C1: the candidate lookup key of the `USES_MATERIAL` rule is NOT the value
with exactly the known prefix stripped.  The generated Cypher uses
`substring(value, len(prefix) + 1)` and Cypher `substring` is 0-indexed, so
`mat_ABC123` yields key `BC123` instead of `ABC123`; against a Resource whose
URI's final segment is `ABC123` the code creates zero `USES_MATERIAL` edges
where the claim (and the intent of "prefix to remove", realised correctly in
`map_experiment_nodes` via `substring(.., 9)` for the 9-character prefix)
requires exactly one. -/
theorem c1_usesMaterial_offByOne :
    candidateKey "mat_" "mat_ABC123" = "BC123" ∧
    cypherSubstring "mat_ABC123" (String.length "mat_") = "ABC123" ∧
    uriTail "http://purl.obolibrary.org/obo/ABC123" = "ABC123" ∧
    map_intervention_edges c1Intervention [c1Resource] = [] := by decide

/-! ## Claim C4 -/

/-- C4 counterexample: the Group label carries the `experiment_id` field
(loaded by `CREATE_QUERIES["Group"]`), the field is present, non-empty and
unprefixed, yet `add_id_prefixes` leaves the node unchanged — the rule is
not applied to "every domain entity type that carries a field of that name",
only to the seven labels hard-coded in the function. -/
theorem c4_group_not_rewritten :
    ("experiment_id", "exp_") ∈ idRules ∧
    getProp groupE1 "experiment_id" = some "E1" ∧
    strStartsWith "exp_" "E1" = false ∧
    add_id_prefixes_node groupE1 = groupE1 ∧
    getProp (add_id_prefixes_node groupE1) "experiment_id" ≠ some ("exp_" ++ "E1") := by
  decide

/-- C4 (amended): each (field, prefix) rule is applied independently and
identically to every node labeled Organism, Sample, Analysis, Assay,
Experiment, Intervention or Material — on such a node, a present, non-empty,
unprefixed field is rewritten to prefix ++ value, and two such nodes with the
same properties end with the same properties regardless of which of the
seven labels they carry (so e.g. `experiment_id` on Experiment and
Intervention receives the same rule).  Other labels carrying the field
(e.g. Group) are not rewritten. -/
theorem c4_amended :
    (∀ n : GNode, n.label ∈ idRuleLabels →
       ∀ fp ∈ idRules, ∀ v, getProp n fp.1 = some v → v ≠ "" →
         strStartsWith fp.2 v = false →
         getProp (add_id_prefixes_node n) fp.1 = some (fp.2 ++ v)) ∧
    (∀ n m : GNode, n.label ∈ idRuleLabels → m.label ∈ idRuleLabels →
       n.props = m.props →
       (add_id_prefixes_node n).props = (add_id_prefixes_node m).props) := by
  constructor
  · intro n hlab fp hfp v hv hvne hs
    rw [addNode_getProp_rule n hlab fp hfp, hv]
    show some (normalizeValue fp.2 v) = some (fp.2 ++ v)
    rw [normalizeValue_of_unprefixed fp.2 v hvne hs]
  · intro n m hn hm h
    rw [addNode_of_label_in n hn, addNode_of_label_in m hm]
    exact foldIdRules_props_congr idRules n m h

/-- Witness for C4's amended theorem at concrete inputs: an Intervention
node's `experiment_id` is rewritten, and an Experiment and an Intervention
node with identical properties are rewritten identically. -/
theorem c4_amended_witness :
    getProp (add_id_prefixes_node ⟨10, "Intervention", [("experiment_id", "E1")]⟩)
        "experiment_id" = some ("exp_" ++ "E1") ∧
    (add_id_prefixes_node ⟨11, "Experiment", [("experiment_id", "E1")]⟩).props =
      (add_id_prefixes_node ⟨12, "Intervention", [("experiment_id", "E1")]⟩).props :=
  ⟨c4_amended.1 ⟨10, "Intervention", [("experiment_id", "E1")]⟩ (by decide)
      ("experiment_id", "exp_") (by decide) "E1" (by decide) (by decide) (by decide),
   c4_amended.2 ⟨11, "Experiment", [("experiment_id", "E1")]⟩
      ⟨12, "Intervention", [("experiment_id", "E1")]⟩ (by decide) (by decide) rfl⟩

/-! ## Claim C5 -/

/-- C5 counterexample: an Organism whose stored `organism_id` is
`org_org_1` (already prefixed beforehand) is left unchanged by
normalization, and the resulting value starts with the designated prefix
`org_` twice, not exactly once. -/
theorem c5_double_prefixed :
    strStartsWith "org_" "org_org_1" = true ∧
    getProp (add_id_prefixes_node orgDoubled) "organism_id" = some "org_org_1" ∧
    strStartsWith "org_" (cypherSubstring "org_org_1" (String.length "org_")) = true := by
  decide

/-- C5 (amended): after normalization every present non-empty identifier
value starts with its designated prefix at least once; when the stored value
was unprefixed it becomes prefix ++ value, which starts with the prefix
exactly once (the remainder after the prefix is the original unprefixed
value); an already-prefixed value is left as it is (so a doubly-prefixed
value stays doubly-prefixed); and normalization is idempotent — a second
run changes no node. -/
theorem c5_amended :
    (∀ n : GNode, add_id_prefixes_node (add_id_prefixes_node n) = add_id_prefixes_node n) ∧
    (∀ n : GNode, n.label ∈ idRuleLabels →
       ∀ fp ∈ idRules, ∀ v, getProp n fp.1 = some v → v ≠ "" →
         getProp (add_id_prefixes_node n) fp.1 = some (normalizeValue fp.2 v) ∧
         strStartsWith fp.2 (normalizeValue fp.2 v) = true ∧
         (strStartsWith fp.2 v = false →
            normalizeValue fp.2 v = fp.2 ++ v ∧
            strStartsWith fp.2 (cypherSubstring (fp.2 ++ v) (String.length fp.2)) = false)) := by
  constructor
  · exact addNode_idem
  · intro n hlab fp hfp v hv hvne
    refine ⟨?_, normalizeValue_startsWith fp.2 v hvne, ?_⟩
    · rw [addNode_getProp_rule n hlab fp hfp, hv]
      rfl
    · intro hs
      refine ⟨normalizeValue_of_unprefixed fp.2 v hvne hs, ?_⟩
      rw [cypherSubstring_append fp.2 v]
      exact hs

/-- Witness for C5's amended theorem: `organism_id` `123` becomes `org_123`
and a second normalization run is a no-op. -/
theorem c5_amended_witness :
    add_id_prefixes_node (add_id_prefixes_node orgNode123) = add_id_prefixes_node orgNode123 ∧
    getProp (add_id_prefixes_node orgNode123) "organism_id" =
      some (normalizeValue "org_" "123") :=
  ⟨c5_amended.1 orgNode123,
   (c5_amended.2 orgNode123 (by decide) ("organism_id", "org_") (by decide) "123"
      (by decide) (by decide)).1⟩

/-! ## Claim C10 -/

/-- C10 counterexample: for the value `v = ""` (which does not start with
`org_`), normalizing a node with `organism_id = ""` and one with
`organism_id = "org_" ++ ""` does NOT produce the same final value: the
empty value is excluded by the `<> ''` guard and stays `""`, while the
prefixed node keeps `org_`. -/
theorem c10_empty_value :
    strStartsWith "org_" "" = false ∧
    getProp (add_id_prefixes_node orgNodeEmpty) "organism_id" = some "" ∧
    getProp (add_id_prefixes_node orgNodeBare) "organism_id" = some ("org_" ++ "") ∧
    getProp (add_id_prefixes_node orgNodeEmpty) "organism_id" ≠
      getProp (add_id_prefixes_node orgNodeBare) "organism_id" := by decide

/-- C10 (amended): for every rule (field, p) and every NON-EMPTY value v not
starting with p, normalizing a node whose field holds v and one whose field
holds p ++ v produces the same final value p ++ v on both, so normalization
is non-injective and destroys whether the identifier was originally
prefixed. -/
theorem c10_amended :
    ∀ fp ∈ idRules, ∀ n₁ n₂ : GNode, n₁.label ∈ idRuleLabels → n₂.label ∈ idRuleLabels →
      ∀ v, v ≠ "" → strStartsWith fp.2 v = false →
        getProp n₁ fp.1 = some v → getProp n₂ fp.1 = some (fp.2 ++ v) →
        getProp (add_id_prefixes_node n₁) fp.1 = some (fp.2 ++ v) ∧
        getProp (add_id_prefixes_node n₂) fp.1 = some (fp.2 ++ v) := by
  intro fp hfp n₁ n₂ h₁ h₂ v hvne hs hv₁ hv₂
  constructor
  · rw [addNode_getProp_rule n₁ h₁ fp hfp, hv₁]
    show some (normalizeValue fp.2 v) = some (fp.2 ++ v)
    rw [normalizeValue_of_unprefixed fp.2 v hvne hs]
  · rw [addNode_getProp_rule n₂ h₂ fp hfp, hv₂]
    show some (normalizeValue fp.2 (fp.2 ++ v)) = some (fp.2 ++ v)
    rw [normalizeValue_of_prefixed fp.2 (fp.2 ++ v) (strStartsWith_append fp.2 v)]

/-- Witness for C10's amended theorem: `123` and `org_123` both end as
`org_123`. -/
theorem c10_amended_witness :
    getProp (add_id_prefixes_node orgNode123) "organism_id" = some ("org_" ++ "123") ∧
    getProp (add_id_prefixes_node orgNodePrefixed) "organism_id" = some ("org_" ++ "123") :=
  c10_amended ("organism_id", "org_") (by decide) orgNode123 orgNodePrefixed
    (by decide) (by decide) "123" (by decide) (by decide) (by decide) (by decide)

/-! ## Claim C6 -/

/-- Scenario: Study S1. -/
def studyS1 : GNode := ⟨1, "Study", [("study_id", "S1")]⟩

/-- Scenario: Experiment E1 belonging to S1. -/
def expE1 : GNode := ⟨2, "Experiment", [("study_id", "S1"), ("experiment_id", "E1")]⟩

/-- Scenario: Experiment E2 belonging to another study. -/
def expE2 : GNode := ⟨3, "Experiment", [("study_id", "S2"), ("experiment_id", "E2")]⟩

/-- Scenario graph for relationship linking. -/
def c6Graph : Graph := ⟨[studyS1, expE1, expE2], []⟩

/-- C6: for every relationship rule (all of them have the shape
`MATCH (l:L), (r:R) WHERE l.f = r.g MERGE ...`), running the rule twice on a
matching node pair yields exactly one directed edge of that type between
that ordered pair; in the scenario with Study S1 and Experiments E1 (study
S1) and E2 (study S2), two runs of the StudyExperiment rule leave exactly
one `HAS_EXPERIMENT` edge, from S1 to E1 and to no other Experiment. -/
theorem c6_merge_exactly_once :
    (∀ (lL lF rT rL rF : String) (g : Graph) (s e : GNode),
       s ∈ g.nodes → s.label = lL → e ∈ g.nodes → e.label = rL →
       propValEq (getProp s lF) (getProp e rF) = true →
       Edge.mk s.nid rT e.nid ∉ g.edges →
       ((runRelRule lL lF rT rL rF (runRelRule lL lF rT rL rF g)).edges).count
           ⟨s.nid, rT, e.nid⟩ = 1) ∧
    (runStudyExperiment (runStudyExperiment c6Graph)).edges = [⟨1, "HAS_EXPERIMENT", 2⟩] := by
  constructor
  · intro lL lF rT rL rF g s e hs hsl he hel hm hne
    have hmem : Edge.mk s.nid rT e.nid ∈ relRuleEdges lL lF rT rL rF g :=
      edge_mem_relRuleEdges lL lF rT rL rF g s e hs hsl he hel hm
    have h1 : ((runRelRule lL lF rT rL rF g).edges).count ⟨s.nid, rT, e.nid⟩ = 1 := by
      show ((relRuleEdges lL lF rT rL rF g).foldl mergeEdge g.edges).count _ = 1
      rw [count_foldl_mergeEdge_of_not_mem _ _ _ hne, if_pos hmem]
    have hmem1 : Edge.mk s.nid rT e.nid ∈ (runRelRule lL lF rT rL rF g).edges := by
      apply List.count_pos_iff.mp
      rw [h1]
      exact Nat.one_pos
    show ((relRuleEdges lL lF rT rL rF (runRelRule lL lF rT rL rF g)).foldl mergeEdge
        (runRelRule lL lF rT rL rF g).edges).count _ = 1
    rw [relRuleEdges_nodes_only, count_foldl_mergeEdge_of_mem _ _ _ hmem1, h1]
  · decide

/-- Witness for C6 at the scenario: the S1 → E1 `HAS_EXPERIMENT` edge has
count exactly 1 after two runs of the rule. -/
theorem c6_merge_exactly_once_witness :
    ((runRelRule "Study" "study_id" "HAS_EXPERIMENT" "Experiment" "study_id"
        (runRelRule "Study" "study_id" "HAS_EXPERIMENT" "Experiment" "study_id"
          c6Graph)).edges).count ⟨1, "HAS_EXPERIMENT", 2⟩ = 1 :=
  c6_merge_exactly_once.1 "Study" "study_id" "HAS_EXPERIMENT" "Experiment" "study_id"
    c6Graph studyS1 expE1 (by decide) (by decide) (by decide) (by decide)
    (by decide) (by decide)

/-! ## Claim C7 -/

theorem speciesMatch_iff (v u : String) :
    speciesMatch v u = true ↔
      (uriTail u = candidateKey "species_" v ∨
       uriTail u = underscoreToColon (candidateKey "species_" v)) := by
  simp [speciesMatch]

/-- C7: in the Organism species mapping, an `IS_SPECIES` edge to a Resource
is created exactly when the Resource URI's final path segment equals the
candidate key (exact, case-sensitive string equality) or equals the
candidate key with every underscore replaced by a colon. -/
theorem c7_species_match (o : GNode) (rs : List GNode) (v : String)
    (hv : getProp o "species_id" = some v) (hvne : v ≠ "") :
    (∀ r ∈ rs,
       (uriTail ((getProp r "uri").getD "") = candidateKey "species_" v ∨
        uriTail ((getProp r "uri").getD "") = underscoreToColon (candidateKey "species_" v)) →
       Edge.mk o.nid "IS_SPECIES" r.nid ∈ map_organism_edges o rs) ∧
    (∀ ed ∈ map_organism_edges o rs,
       ed.typ = "IS_SPECIES" ∧ ed.src = o.nid ∧
       ∃ r ∈ rs, ed.dst = r.nid ∧
         (uriTail ((getProp r "uri").getD "") = candidateKey "species_" v ∨
          uriTail ((getProp r "uri").getD "") = underscoreToColon (candidateKey "species_" v))) := by
  have hrw : map_organism_edges o rs =
      (rs.filter (fun r => speciesMatch v ((getProp r "uri").getD ""))).map
        (fun r => ⟨o.nid, "IS_SPECIES", r.nid⟩) := by
    simp only [map_organism_edges]
    rw [hv]
    show (if v = "" then ([] : List Edge) else _) = _
    rw [if_neg hvne]
  constructor
  · intro r hr hcond
    rw [hrw]
    exact List.mem_map.mpr
      ⟨r, List.mem_filter.mpr ⟨hr, (speciesMatch_iff v _).mpr hcond⟩, rfl⟩
  · intro ed hed
    rw [hrw] at hed
    obtain ⟨r, hrf, rfl⟩ := List.mem_map.mp hed
    obtain ⟨hr, hsm⟩ := List.mem_filter.mp hrf
    exact ⟨rfl, rfl, r, hr, rfl, (speciesMatch_iff v _).mp hsm⟩

/-- An Organism with an NCBITaxon species id. -/
def organismHuman : GNode := ⟨20, "Organism", [("species_id", "NCBITaxon_9606")]⟩

/-- A Resource for the same NCBITaxon term. -/
def taxonResource : GNode :=
  ⟨21, "Resource", [("uri", "http://purl.obolibrary.org/obo/NCBITaxon_9606")]⟩

/-- Witness for C7: the NCBITaxon organism is linked to the matching
Resource by an `IS_SPECIES` edge. -/
theorem c7_species_match_witness :
    Edge.mk 20 "IS_SPECIES" 21 ∈ map_organism_edges organismHuman [taxonResource] :=
  (c7_species_match organismHuman [taxonResource] "NCBITaxon_9606" (by decide)
      (by decide)).1 taxonResource (by decide) (Or.inl (by decide))

/-! ## Claim C2 -/

/-- A Resource node carrying the coded definition property. -/
def vaccineResource : GNode := ⟨30, "Resource", [("IAO_0000115", "A vaccine.")]⟩

/-- C2 counterexample: the second humanizer run is NOT a no-op.  After the
first run the node holds `definition = "A vaccine."` and no coded key; on
the second run the `SET` query copies the now-absent coded property, which
stores `null` and therefore REMOVES `definition`.  The node after two runs
differs from the node after one run. -/
theorem c2_second_run_not_noop :
    getProp (update_resource_properties_node vaccineResource) "definition" =
      some "A vaccine." ∧
    getProp (update_resource_properties_node
        (update_resource_properties_node vaccineResource)) "definition" = none ∧
    update_resource_properties_node (update_resource_properties_node vaccineResource) ≠
      update_resource_properties_node vaccineResource := by decide

/-- C2 (amended): the first run humanizes — a Resource node with coded
property `IAO_0000115 = "A vaccine."` afterwards has
`definition = "A vaccine."` and no longer has `IAO_0000115` — but running
the humanizer twice is not safe: because copying an absent source property
stores `null`, which removes the target, the second run deletes every
humanized property from every Resource node. -/
theorem c2_amended :
    (getProp (update_resource_properties_node vaccineResource) "definition" =
        some "A vaccine." ∧
     getProp (update_resource_properties_node vaccineResource) "IAO_0000115" = none) ∧
    (∀ (n : GNode) (t : String), t ∈ humanizePairs.map Prod.fst →
       getProp (update_resource_properties_node (update_resource_properties_node n)) t =
         none) :=
  ⟨⟨by decide, by decide⟩, urpNode_twice_target_none⟩

/-- Witness for C2's amended theorem at the concrete scenario node and the
`definition` target key. -/
theorem c2_amended_witness :
    getProp (update_resource_properties_node
        (update_resource_properties_node vaccineResource)) "definition" = none :=
  c2_amended.2 vaccineResource "definition" (by decide)

/-! ## Claim C8 -/

/-- C8: the Resource property humanizer modifies only Resource nodes — all
relationships are unchanged, the node list keeps its length, and every node
whose label is not `Resource` (domain entities, including those carrying
`vo_`-namespaced copies) is preserved exactly, at its position. -/
theorem c8_humanizer_frame :
    ∀ g : Graph,
      (update_resource_properties_graph g).edges = g.edges ∧
      (update_resource_properties_graph g).nodes.length = g.nodes.length ∧
      (∀ (i : Nat) (n : GNode), g.nodes[i]? = some n → n.label ≠ "Resource" →
        (update_resource_properties_graph g).nodes[i]? = some n) := by
  intro g
  refine ⟨rfl, by simp [update_resource_properties_graph], ?_⟩
  intro i n hi hlab
  show (g.nodes.map fun n =>
      if n.label == "Resource" then update_resource_properties_node n else n)[i]? = some n
  rw [List.getElem?_map, hi]
  show some (if n.label == "Resource" then update_resource_properties_node n else n) = some n
  rw [beq_eq_false_iff_ne.mpr hlab]
  rfl

/-- Witness for C8: a graph holding one Experiment node with a
`vo_`-namespaced property is untouched by the humanizer. -/
theorem c8_humanizer_frame_witness :
    (update_resource_properties_graph
        ⟨[⟨31, "Experiment", [("vo_definition", "A vaccine.")]⟩], []⟩).nodes[0]? =
      some ⟨31, "Experiment", [("vo_definition", "A vaccine.")]⟩ :=
  (c8_humanizer_frame ⟨[⟨31, "Experiment", [("vo_definition", "A vaccine.")]⟩], []⟩).2.2
    0 ⟨31, "Experiment", [("vo_definition", "A vaccine.")]⟩ (by decide) (by decide)

/-! ## Claim C9 -/

/-- C9: ID normalization never creates a property.  Per rule, a node whose
field is absent or holds the empty string is left entirely unchanged by that
rule; on any node, normalization preserves exactly which properties are
present; and only nodes labeled Organism, Sample, Analysis, Assay,
Experiment, Intervention or Material can be modified — a node with any
other label (Study, Group, Documentation, Result, ...) is untouched. -/
theorem c9_normalizer_frame :
    (∀ (fp : String × String) (n : GNode),
       getProp n fp.1 = none ∨ getProp n fp.1 = some "" →
       applyIdRule fp.1 fp.2 n = n) ∧
    (∀ (n : GNode) (k : String),
       (getProp (add_id_prefixes_node n) k).isSome = (getProp n k).isSome) ∧
    (∀ n : GNode, n.label ∉ idRuleLabels → add_id_prefixes_node n = n) := by
  refine ⟨?_, addNode_isSome, addNode_of_label_notin⟩
  intro fp n h
  rcases h with h | h
  · exact applyIdRule_of_none fp.1 fp.2 n h
  · exact applyIdRule_of_guard fp.1 fp.2 n "" h (Or.inl rfl)

/-- Witness for C9: a rule whose field is absent leaves the node unchanged,
property presence is preserved on a concrete Organism, and a Study node is
untouched by the whole pass. -/
theorem c9_normalizer_frame_witness :
    applyIdRule "organism_id" "org_" organismHuman = organismHuman ∧
    (getProp (add_id_prefixes_node orgNode123) "species_id").isSome =
      (getProp orgNode123 "species_id").isSome ∧
    add_id_prefixes_node ⟨32, "Study", [("study_id", "S1")]⟩ =
      ⟨32, "Study", [("study_id", "S1")]⟩ :=
  ⟨c9_normalizer_frame.1 ("organism_id", "org_") organismHuman (Or.inl (by decide)),
   c9_normalizer_frame.2.1 orgNode123 "species_id",
   c9_normalizer_frame.2.2 ⟨32, "Study", [("study_id", "S1")]⟩ (by decide)⟩

/-! ## Claim C3 -/

/-- C3 counterexample: with a failing ontology fetch, the exception is
swallowed inside `import_ontology_complete`, so `import_data` continues:
ID normalization (`add_id_prefixes`) and domain mapping (`map_ontology`)
still run, contrary to the claim that the failure aborts them. -/
theorem c3_pipeline_not_aborted :
    (import_data_run false).1 =
      [Phase.importOntology, Phase.addIdPrefixes, Phase.mapOntology,
       Phase.updateResourceProps] ∧
    Phase.addIdPrefixes ∈ (import_data_run false).1 ∧
    Phase.mapOntology ∈ (import_data_run false).1 := by decide

/-- C3 (amended): when the fetch fails the error is logged and the import
step returns without raising (aborting only its own remaining statements);
entity nodes already loaded and all relationships are preserved unchanged;
but the rest of the pipeline is NOT aborted — ID normalization and domain
mapping still run. -/
theorem c3_amended :
    import_ontology_complete false =
      Except.ok ["Error during ontology import: fetch failed"] ∧
    (∀ (imported : List GNode) (g : Graph),
       (import_ontology_effect false imported g).edges = g.edges ∧
       ∀ n ∈ g.nodes, n.label ∈ domainLabels →
         n ∈ (import_ontology_effect false imported g).nodes) ∧
    (import_data_run false).1 = pipelinePhases := by
  refine ⟨rfl, ?_, by decide⟩
  intro imported g
  refine ⟨rfl, ?_⟩
  intro n hn hlab
  show n ∈ g.nodes.filter (fun x => x.label != "_GraphConfig")
  apply List.mem_filter.mpr
  refine ⟨hn, ?_⟩
  have hne : n.label ≠ "_GraphConfig" := by
    intro he
    rw [he] at hlab
    exact absurd hlab (by decide)
  simpa [bne_iff_ne] using hne

/-- Witness for C3's amended theorem: a loaded Study node survives a failed
ontology import. -/
theorem c3_amended_witness :
    studyS1 ∈ (import_ontology_effect false [] ⟨[studyS1], []⟩).nodes :=
  (c3_amended.2.1 [] ⟨[studyS1], []⟩).2 studyS1 (by decide) (by decide)

end OseanKG
